import Mathlib

/-!
Shallow embedding of the transformer design-matching engine
(`backend/app/services/similarity.py`, `backend/app/services/excel_parser.py`,
`backend/app/routers/search.py`, `backend/app/models/transformer.py`).

Python floats are modelled as exact rationals (`ℚ`); `Optional[T]` becomes
`Option T`; the untyped values that can reach the numeric comparator
(numbers or strings) become `PyVal`.
-/

namespace Trafo

/-- A dynamic value as it can reach `calculate_numeric_similarity`:
either a number or a raw string (e.g. `"11000V"`, `"10,5 kVA"`). -/
inductive PyVal where
  | num (q : ℚ)
  | str (s : String)
deriving DecidableEq

/-- Numeric value of one ASCII digit character. -/
def digitVal (c : Char) : ℕ := c.toNat - '0'.toNat

/-- Value of a digit string read in base 10. -/
def digitsVal (ds : List Char) : ℕ := ds.foldl (fun a c => 10 * a + digitVal c) 0

/-- Value of the fractional digits after the decimal point. -/
def fracVal (ds : List Char) : ℚ := (digitsVal ds : ℚ) / ((10 : ℚ) ^ ds.length)

/-- Attempt to match the regex `[-+]?\d*\.?\d+` anchored at the head of the
character list, returning the numeric value of the (greedy, backtracking)
match, as `re.search` + `float` do in `extract_number` / `_safe_float`.

The regex semantics: an optional sign, then greedy digits; if a dot follows
and at least one digit follows the dot, the dot and those digits are
included; otherwise the match is the leading digits alone (failing when
there are none). -/
def matchNumAt (cs : List Char) : Option ℚ :=
  let sgnRest : ℚ × List Char :=
    match cs with
    | '+' :: t => (1, t)
    | '-' :: t => (-1, t)
    | t => (1, t)
  let sgn := sgnRest.1
  let rest := sgnRest.2
  let d1 := rest.takeWhile Char.isDigit
  let r1 := rest.drop d1.length
  match r1 with
  | '.' :: r2 =>
    let d2 := r2.takeWhile Char.isDigit
    if d2.isEmpty then
      if d1.isEmpty then none else some (sgn * (digitsVal d1 : ℚ))
    else
      some (sgn * ((digitsVal d1 : ℚ) + fracVal d2))
  | _ => if d1.isEmpty then none else some (sgn * (digitsVal d1 : ℚ))

/-- Leftmost match of the number regex over the character list: the value of
the first decimal number occurring in the text (`re.search` semantics). -/
def findNumber : List Char → Option ℚ
  | [] => none
  | c :: cs =>
    match matchNumAt (c :: cs) with
    | some q => some q
    | none => findNumber cs

/-- Characters of a string after `val.replace(',', '.')`. -/
def commaDots (s : String) : List Char :=
  s.data.map (fun c => if c = ',' then '.' else c)

/-- Embedding of the inner `extract_number` helper of
`calculate_numeric_similarity`: a number is returned unchanged, a string is
searched for its first decimal number (comma treated as decimal point). -/
def extractNumber : PyVal → Option ℚ
  | .num q => some q
  | .str s => findNumber (commaDots s)

/-- Embedding of `SimilarityEngine.calculate_numeric_similarity`
(`similarity.py` lines 39-89).  The `tolerance` argument is accepted, and —
exactly as in the source — never used. -/
def calculate_numeric_similarity (v1 v2 : Option PyVal) (tolerance : ℚ) : ℚ :=
  match v1, v2 with
  | none, _ => 1/2
  | some _, none => 1/2
  | some a, some b =>
    match extractNumber a, extractNumber b with
    | some x, some y =>
      if x = 0 ∧ y = 0 then 1
      else if x = 0 ∨ y = 0 then 0
      else
        let d := |x - y| / max |x| |y|
        if d ≤ 5/100 then 1
        else if d ≤ 10/100 then 9/10
        else if d ≤ 20/100 then 4/10
        else 0
    | _, _ => 0

/-- The banded step function on the relative difference, as a standalone
function (used to state properties of the numeric comparator). -/
def bandScore (d : ℚ) : ℚ :=
  if d ≤ 5/100 then 1
  else if d ≤ 10/100 then 9/10
  else if d ≤ 20/100 then 4/10
  else 0

/-- Relative difference used by the numeric comparator. -/
def relDiff (x y : ℚ) : ℚ := |x - y| / max |x| |y|

/-- Whitespace characters removed by `str.strip()` (ASCII). -/
def isSpace (c : Char) : Bool :=
  c = ' ' || c = '\t' || c = '\n' || c = '\x0d' || c = '\x0b' || c = '\x0c'

/-- Characters of a string with leading and trailing whitespace removed,
Python `str.strip()`. -/
def stripChars (cs : List Char) : List Char :=
  ((cs.dropWhile isSpace).reverse.dropWhile isSpace).reverse

/-- Python `str.strip()` producing a string. -/
def pyStrip (s : String) : String := ⟨stripChars s.data⟩

/-- Normalisation `value.lower().strip()` used by the string comparators,
as a character list. -/
def lowerStrip (s : String) : List Char :=
  stripChars (s.data.map Char.toLower)

/-- Does `hay` start with `needle`? -/
def leadsWith : List Char → List Char → Bool
  | [], _ => true
  | _ :: _, [] => false
  | a :: as, b :: bs => a = b && leadsWith as bs

/-- Does `hay` contain `needle` as a contiguous segment (Python `in`)? -/
def hasSegment (needle : List Char) : List Char → Bool
  | [] => needle.isEmpty
  | b :: bs => leadsWith needle (b :: bs) || hasSegment needle bs

/-- Embedding of `SimilarityEngine.calculate_string_similarity`
(`similarity.py` lines 91-110). -/
def calculate_string_similarity (v1 v2 : Option String) : ℚ :=
  match v1, v2 with
  | none, _ => 1/2
  | some _, none => 1/2
  | some a, some b =>
    let x := lowerStrip a
    let y := lowerStrip b
    if x = y then 1
    else if hasSegment x y || hasSegment y x then 7/10
    else 0

/-- Full-string match of `^([a-z]+)(\d*)$`: a non-empty run of lowercase
letters followed by (possibly empty) digits, spanning the whole string.
Returns the letter part and the digit part. -/
def vgParse (cs : List Char) : Option (List Char × List Char) :=
  let base := cs.takeWhile (fun c => 'a' ≤ c && c ≤ 'z')
  let rest := cs.drop base.length
  if base.isEmpty then none
  else if rest.all Char.isDigit then some (base, rest)
  else none

/-- Embedding of `SimilarityEngine.calculate_vector_group_similarity`
(`similarity.py` lines 112-148). -/
def calculate_vector_group_similarity (vg1 vg2 : Option String) : ℚ :=
  match vg1, vg2 with
  | none, _ => 1/2
  | some _, none => 1/2
  | some a, some b =>
    let x := lowerStrip a
    let y := lowerStrip b
    if x = y then 1
    else
      match vgParse x, vgParse y with
      | some p1, some p2 => if p1.1 = p2.1 then 8/10 else 0
      | _, _ => 0

/-- Embedding of the fields of `TransformerSpecs` (`models/transformer.py`)
that the similarity engine and the catalog loaders read.  Numeric fields are
`Option ℚ`, categorical fields `Option String`; a `none` models Python
`None` (field unset). -/
structure TransformerSpecs where
  design_number : Option String
  file_path : Option String
  input_rating_kva : Option ℚ
  input_high_voltage_v : Option ℚ
  input_low_voltage_v : Option ℚ
  input_frequency_hz : Option ℚ
  input_no_load_loss_w : Option ℚ
  input_load_loss_w : Option ℚ
  input_impedance_percent : Option ℚ
  input_cooling_type : Option String
  input_lv_material : Option String
  input_hv_material : Option String
  output_vector_group : Option String
  output_no_load_loss_w : Option ℚ
  output_load_loss_w : Option ℚ
  output_impedance_percent : Option ℚ
  output_core_material : Option String
deriving DecidableEq

/-- A record with every field unset. -/
def TransformerSpecs.empty : TransformerSpecs :=
  ⟨none, none, none, none, none, none, none, none, none, none, none, none,
   none, none, none, none, none⟩

/-- Python `a or b` on optional floats: `a` is falsy when it is `None` or
`0.0`, in which case `b` is returned. -/
def pyOrQ (a b : Option ℚ) : Option ℚ :=
  match a with
  | some x => if x = 0 then b else some x
  | none => b

/-- Compatibility property `rating_kva` (`transformer.py` line 121). -/
def TransformerSpecs.rating_kva (r : TransformerSpecs) : Option ℚ :=
  r.input_rating_kva

/-- Compatibility property `high_voltage_v`. -/
def TransformerSpecs.high_voltage_v (r : TransformerSpecs) : Option ℚ :=
  r.input_high_voltage_v

/-- Compatibility property `low_voltage_v`. -/
def TransformerSpecs.low_voltage_v (r : TransformerSpecs) : Option ℚ :=
  r.input_low_voltage_v

/-- Compatibility property `vector_group`. -/
def TransformerSpecs.vector_group (r : TransformerSpecs) : Option String :=
  r.output_vector_group

/-- Compatibility property `no_load_loss_w`
(`self.output_no_load_loss_w or self.input_no_load_loss_w`). -/
def TransformerSpecs.no_load_loss_w (r : TransformerSpecs) : Option ℚ :=
  pyOrQ r.output_no_load_loss_w r.input_no_load_loss_w

/-- Compatibility property `load_loss_w`. -/
def TransformerSpecs.load_loss_w (r : TransformerSpecs) : Option ℚ :=
  pyOrQ r.output_load_loss_w r.input_load_loss_w

/-- Compatibility property `impedance_percent`. -/
def TransformerSpecs.impedance_percent (r : TransformerSpecs) : Option ℚ :=
  pyOrQ r.output_impedance_percent r.input_impedance_percent

/-- Compatibility property `cooling_type`. -/
def TransformerSpecs.cooling_type (r : TransformerSpecs) : Option String :=
  r.input_cooling_type

/-- Compatibility property `frequency_hz`. -/
def TransformerSpecs.frequency_hz (r : TransformerSpecs) : Option ℚ :=
  r.input_frequency_hz

/-- Compatibility property `hv_material`. -/
def TransformerSpecs.hv_material (r : TransformerSpecs) : Option String :=
  r.input_hv_material

/-- Compatibility property `lv_material`. -/
def TransformerSpecs.lv_material (r : TransformerSpecs) : Option String :=
  r.input_lv_material

/-- The twelve weighted comparison fields, keys of `SimilarityEngine.WEIGHTS`. -/
inductive Field where
  | rating_kva
  | high_voltage_v
  | low_voltage_v
  | vector_group
  | no_load_loss_w
  | load_loss_w
  | impedance_percent
  | cooling_type
  | frequency_hz
  | lv_material
  | hv_material
  | core_material
deriving DecidableEq

/-- Weight table `SimilarityEngine.WEIGHTS` (`similarity.py` lines 10-23). -/
def WEIGHTS : Field → ℚ
  | .rating_kva => 1
  | .high_voltage_v => 9/10
  | .low_voltage_v => 9/10
  | .vector_group => 8/10
  | .no_load_loss_w => 7/10
  | .load_loss_w => 7/10
  | .impedance_percent => 6/10
  | .cooling_type => 5/10
  | .frequency_hz => 5/10
  | .lv_material => 4/10
  | .hv_material => 4/10
  | .core_material => 3/10

/-- Tolerance lookup `self.TOLERANCES.get(param, 0.15)`
(`similarity.py` lines 26-34 and 173). -/
def TOLERANCES : Field → ℚ
  | .rating_kva => 5/100
  | .high_voltage_v => 5/100
  | .low_voltage_v => 5/100
  | .no_load_loss_w => 15/100
  | .load_loss_w => 15/100
  | .impedance_percent => 10/100
  | .frequency_hz => 0
  | _ => 15/100

/-- Iteration order of `self.WEIGHTS.items()` — Python dictionaries preserve
insertion order. -/
def fieldOrder : List Field :=
  [.rating_kva, .high_voltage_v, .low_voltage_v, .vector_group,
   .no_load_loss_w, .load_loss_w, .impedance_percent, .cooling_type,
   .frequency_hz, .lv_material, .hv_material, .core_material]

/-- A query: the `query_specs` dictionary restricted to the weighted fields
(`query_specs.get(param)` returns `None` for the rest).  Numeric fields may
hold a number or a raw string, exactly the values the numeric comparator
accepts; the categorical fields hold strings. -/
structure Query where
  rating_kva : Option PyVal
  high_voltage_v : Option PyVal
  low_voltage_v : Option PyVal
  vector_group : Option String
  no_load_loss_w : Option PyVal
  load_loss_w : Option PyVal
  impedance_percent : Option PyVal
  cooling_type : Option String
  frequency_hz : Option PyVal
  lv_material : Option String
  hv_material : Option String
  core_material : Option String
deriving DecidableEq

/-- The empty query (every lookup yields `None`). -/
def Query.empty : Query :=
  ⟨none, none, none, none, none, none, none, none, none, none, none, none⟩

/-- The design-side value passed to the numeric comparator for a numeric
field, wrapped as a `PyVal`. -/
def numOpt (o : Option ℚ) : Option PyVal := o.map PyVal.num

/-- Score of one weighted field for a query against a design, or `none` when
the query does not carry the field (the loop body `if query_value is None:
continue`, then the per-type dispatch of `calculate_similarity`,
`similarity.py` lines 165-181).  The design side is fetched with
`getattr(design_specs, param, None)`: `TransformerSpecs` exposes
compatibility properties for eleven of the twelve weighted names but none
called `core_material`, so for that field the design-side value is always
`None`. -/
def fieldScore (q : Query) (d : TransformerSpecs) : Field → Option ℚ
  | .rating_kva => q.rating_kva.map fun v =>
      calculate_numeric_similarity (some v) (numOpt d.rating_kva) (TOLERANCES .rating_kva)
  | .high_voltage_v => q.high_voltage_v.map fun v =>
      calculate_numeric_similarity (some v) (numOpt d.high_voltage_v) (TOLERANCES .high_voltage_v)
  | .low_voltage_v => q.low_voltage_v.map fun v =>
      calculate_numeric_similarity (some v) (numOpt d.low_voltage_v) (TOLERANCES .low_voltage_v)
  | .vector_group => q.vector_group.map fun v =>
      calculate_vector_group_similarity (some v) d.vector_group
  | .no_load_loss_w => q.no_load_loss_w.map fun v =>
      calculate_numeric_similarity (some v) (numOpt d.no_load_loss_w) (TOLERANCES .no_load_loss_w)
  | .load_loss_w => q.load_loss_w.map fun v =>
      calculate_numeric_similarity (some v) (numOpt d.load_loss_w) (TOLERANCES .load_loss_w)
  | .impedance_percent => q.impedance_percent.map fun v =>
      calculate_numeric_similarity (some v) (numOpt d.impedance_percent) (TOLERANCES .impedance_percent)
  | .cooling_type => q.cooling_type.map fun v =>
      calculate_string_similarity (some v) d.cooling_type
  | .frequency_hz => q.frequency_hz.map fun v =>
      calculate_numeric_similarity (some v) (numOpt d.frequency_hz) (TOLERANCES .frequency_hz)
  | .lv_material => q.lv_material.map fun v =>
      calculate_string_similarity (some v) d.lv_material
  | .hv_material => q.hv_material.map fun v =>
      calculate_string_similarity (some v) d.hv_material
  | .core_material => q.core_material.map fun v =>
      calculate_string_similarity (some v) none

/-- The per-field `(score, weight)` entries processed by the accumulation
loop of `calculate_similarity`, in loop order; `none` marks a skipped field. -/
def simEntries (q : Query) (d : TransformerSpecs) : List (Option ℚ × ℚ) :=
  fieldOrder.map fun f => (fieldScore q d f, WEIGHTS f)

/-- Contribution of one entry to `total_score`: `score * weight` for a
field present in the query, `0` for a skipped field. -/
def entryScore : Option ℚ × ℚ → ℚ
  | (none, _) => 0
  | (some s, w) => s * w

/-- Contribution of one entry to `total_weight`: the weight for a field
present in the query, `0` for a skipped field. -/
def entryWeight : Option ℚ × ℚ → ℚ
  | (none, _) => 0
  | (some _, w) => w

/-- Accumulated `total_score`: sum of `score * weight` over non-skipped
entries. -/
def scoreSum (l : List (Option ℚ × ℚ)) : ℚ := (l.map entryScore).sum

/-- Accumulated `total_weight`: sum of weights over non-skipped entries. -/
def weightSum (l : List (Option ℚ × ℚ)) : ℚ := (l.map entryWeight).sum

/-- Rounding of a rational to the nearest integer, halves to even — Python's
`round` applied to the (idealised, exact) value. -/
def roundHE (y : ℚ) : ℤ :=
  let f := ⌊y⌋
  let r := y - (f : ℚ)
  if r < 1/2 then f
  else if 1/2 < r then f + 1
  else if f % 2 = 0 then f else f + 1

/-- Python `round(x, n)` on the exact rational value. -/
def pyRound (x : ℚ) (n : ℕ) : ℚ :=
  (roundHE (x * (10 : ℚ) ^ n) : ℚ) / (10 : ℚ) ^ n

/-- The `match_details` accumulated by `calculate_similarity`: for every
field present in the query, the rounded score and rounded weighted score
(the raw query/design echo stored alongside is omitted). -/
def simDetails (q : Query) (d : TransformerSpecs) : List (Field × ℚ × ℚ) :=
  fieldOrder.filterMap fun f =>
    (fieldScore q d f).map fun s => (f, pyRound s 3, pyRound (s * WEIGHTS f) 3)

/-- Embedding of `SimilarityEngine.calculate_similarity`
(`similarity.py` lines 150-197): the normalised score
`total_score / total_weight` (or `0.0` when no query field was weighted)
together with the per-field breakdown. -/
def calculate_similarity (q : Query) (d : TransformerSpecs) : ℚ × List (Field × ℚ × ℚ) :=
  (if 0 < weightSum (simEntries q d)
     then scoreSum (simEntries q d) / weightSum (simEntries q d)
     else 0,
   simDetails q d)

/-- Does the query carry a value for the given weighted field? -/
def Query.hasField (q : Query) : Field → Bool
  | .rating_kva => q.rating_kva.isSome
  | .high_voltage_v => q.high_voltage_v.isSome
  | .low_voltage_v => q.low_voltage_v.isSome
  | .vector_group => q.vector_group.isSome
  | .no_load_loss_w => q.no_load_loss_w.isSome
  | .load_loss_w => q.load_loss_w.isSome
  | .impedance_percent => q.impedance_percent.isSome
  | .cooling_type => q.cooling_type.isSome
  | .frequency_hz => q.frequency_hz.isSome
  | .lv_material => q.lv_material.isSome
  | .hv_material => q.hv_material.isSome
  | .core_material => q.core_material.isSome

/-- The query with the given weighted field removed. -/
def Query.eraseField (q : Query) : Field → Query
  | .rating_kva => { q with rating_kva := none }
  | .high_voltage_v => { q with high_voltage_v := none }
  | .low_voltage_v => { q with low_voltage_v := none }
  | .vector_group => { q with vector_group := none }
  | .no_load_loss_w => { q with no_load_loss_w := none }
  | .load_loss_w => { q with load_loss_w := none }
  | .impedance_percent => { q with impedance_percent := none }
  | .cooling_type => { q with cooling_type := none }
  | .frequency_hz => { q with frequency_hz := none }
  | .lv_material => { q with lv_material := none }
  | .hv_material => { q with hv_material := none }
  | .core_material => { q with core_material := none }

/-- The design-side value of a weighted field is absent, as seen by the
scorer's `getattr(design_specs, param, None)` lookup. -/
def designMissing (d : TransformerSpecs) : Field → Prop
  | .rating_kva => d.rating_kva = none
  | .high_voltage_v => d.high_voltage_v = none
  | .low_voltage_v => d.low_voltage_v = none
  | .vector_group => d.vector_group = none
  | .no_load_loss_w => d.no_load_loss_w = none
  | .load_loss_w => d.load_loss_w = none
  | .impedance_percent => d.impedance_percent = none
  | .cooling_type => d.cooling_type = none
  | .frequency_hz => d.frequency_hz = none
  | .lv_material => d.lv_material = none
  | .hv_material => d.hv_material = none
  | .core_material => True

/-- The query's value for each field it carries equals the design-side value
of that field (so the design-side lookup succeeds with the same value). -/
def QueryAgrees (q : Query) (d : TransformerSpecs) : Prop :=
  (∀ v, q.rating_kva = some v → ∃ x, d.rating_kva = some x ∧ v = .num x) ∧
  (∀ v, q.high_voltage_v = some v → ∃ x, d.high_voltage_v = some x ∧ v = .num x) ∧
  (∀ v, q.low_voltage_v = some v → ∃ x, d.low_voltage_v = some x ∧ v = .num x) ∧
  (∀ s, q.vector_group = some s → d.vector_group = some s) ∧
  (∀ v, q.no_load_loss_w = some v → ∃ x, d.no_load_loss_w = some x ∧ v = .num x) ∧
  (∀ v, q.load_loss_w = some v → ∃ x, d.load_loss_w = some x ∧ v = .num x) ∧
  (∀ v, q.impedance_percent = some v → ∃ x, d.impedance_percent = some x ∧ v = .num x) ∧
  (∀ s, q.cooling_type = some s → d.cooling_type = some s) ∧
  (∀ v, q.frequency_hz = some v → ∃ x, d.frequency_hz = some x ∧ v = .num x) ∧
  (∀ s, q.lv_material = some s → d.lv_material = some s) ∧
  (∀ s, q.hv_material = some s → d.hv_material = some s) ∧
  q.core_material = none

/-- Python `a or dflt` for an optional string: `None` and the empty string
are falsy. -/
def pyOrStr (a : Option String) (dflt : String) : String :=
  match a with
  | some s => if s = "" then dflt else s
  | none => dflt

/-- Embedding of the `TransformerMatch` model (`models/transformer.py`). -/
structure TransformerMatch where
  design_number : String
  file_path : String
  similarity_score : ℚ
  specs : TransformerSpecs
  match_details : List (Field × ℚ × ℚ)
deriving DecidableEq

/-- The match object built by `find_similar_designs` for a retained design
(`similarity.py` lines 224-230); the stored score is `round(score, 4)`. -/
def mkMatch (q : Query) (d : TransformerSpecs) : TransformerMatch :=
  { design_number := pyOrStr d.design_number "Unknown"
    file_path := pyOrStr d.file_path ""
    similarity_score := pyRound (calculate_similarity q d).1 4
    specs := d
    match_details := (calculate_similarity q d).2 }

/-- The match list accumulated by the scan loop of `find_similar_designs`,
in catalog order: one entry per design whose score reaches `min_score`. -/
def preMatches (q : Query) (designs : List TransformerSpecs) (min_score : ℚ) :
    List TransformerMatch :=
  designs.filterMap fun d =>
    if min_score ≤ (calculate_similarity q d).1 then some (mkMatch q d) else none

/-- Comparison used by `matches.sort(key=lambda x: x.similarity_score,
reverse=True)`: `a` may stay before `b` when its stored score is at least
`b`'s.  Python's sort is stable, which `List.insertionSort` with this
relation reproduces. -/
def matchGE (a b : TransformerMatch) : Prop :=
  b.similarity_score ≤ a.similarity_score

instance : DecidableRel matchGE := fun a b =>
  inferInstanceAs (Decidable (b.similarity_score ≤ a.similarity_score))

instance : IsTotal TransformerMatch matchGE :=
  ⟨fun a b => le_total b.similarity_score a.similarity_score⟩

instance : IsTrans TransformerMatch matchGE :=
  ⟨fun _ _ _ h1 h2 => le_trans h2 h1⟩

/-- Embedding of `SimilarityEngine.find_similar_designs`
(`similarity.py` lines 199-235): filter by `min_score`, stable sort by
stored score descending, truncate to `max_results`. -/
def find_similar_designs (q : Query) (designs : List TransformerSpecs)
    (max_results : ℕ) (min_score : ℚ) : List TransformerMatch :=
  (List.insertionSort matchGE (preMatches q designs min_score)).take max_results

/-- A spreadsheet cell as the `_safe_*` converters see it: `none` models
`None`/`NaN`, otherwise a number or a string. -/
def Cell := Option PyVal

/-- Embedding of `ExcelParser._safe_float` (`excel_parser.py` lines 47-61):
`None`/`NaN` yield `None`; a string yields the first decimal number in the
text with commas read as decimal points, or `None` when there is none; a
number is returned unchanged. -/
def safe_float (c : Cell) : Option ℚ :=
  match c with
  | none => none
  | some v => extractNumber v

/-- Truncation toward zero, Python's `int()` on a float. -/
def pyTrunc (q : ℚ) : ℤ :=
  if 0 ≤ q then ⌊q⌋ else ⌈q⌉

/-- Embedding of `ExcelParser._safe_int` (`excel_parser.py` lines 63-68). -/
def safe_int (c : Cell) : Option ℤ :=
  match safe_float c with
  | some q => some (pyTrunc q)
  | none => none

/-- Embedding of `ExcelParser._safe_str` (`excel_parser.py` lines 70-74) on
a text cell: `None`/`NaN` yield `None`, otherwise the trimmed string —
including the empty string, which is returned as `""`, not `None`. -/
def safe_str (c : Option String) : Option String :=
  match c with
  | none => none
  | some s => some (pyStrip s)

/-- Truthiness of `specs.input_rating_kva`: the catalog guard
`if specs and specs.input_rating_kva` (a parsed record object itself is
always truthy; the float is falsy when `None` or `0.0`). -/
def ratingOk (s : TransformerSpecs) : Bool :=
  match s.input_rating_kva with
  | some q => decide (q ≠ 0)
  | none => false

/-- One step of the catalog filters: the record kept from one parse outcome
(`parse_excel_file` returns `None` on failure), or `none` when skipped. -/
def keepRecord : Option TransformerSpecs → Option TransformerSpecs
  | some s => if ratingOk s then some s else none
  | none => none

/-- Embedding of `ExcelParser.load_all_designs` (`excel_parser.py` lines
447-458) over the list of per-file parse outcomes: keep exactly the parsed
records whose rating field is truthy. -/
def load_all_designs (parsed : List (Option TransformerSpecs)) :
    List TransformerSpecs :=
  parsed.filterMap keepRecord

/-- Success and failure counters of the bulk refresh loop in
`refresh_database` (`routers/search.py` lines 281-293): a file counts as a
success when its record passes the rating guard and is upserted, and as one
failure otherwise. -/
def refresh_counts (parsed : List (Option TransformerSpecs)) : ℕ × ℕ :=
  (parsed.countP (fun o => (keepRecord o).isSome),
   parsed.countP (fun o => (keepRecord o).isNone))

/-! Concrete inputs used by counterexamples and witnesses. -/

/-- Query of the spec's worked example:
`{rating_kva: 100, high_voltage_v: 11000, low_voltage_v: 415}`. -/
def exampleQuery3 : Query :=
  { Query.empty with
      rating_kva := some (.num 100)
      high_voltage_v := some (.num 11000)
      low_voltage_v := some (.num 415) }

/-- Record with exactly the three example values populated, others unset. -/
def exampleRecord3 : TransformerSpecs :=
  { TransformerSpecs.empty with
      input_rating_kva := some 100
      input_high_voltage_v := some 11000
      input_low_voltage_v := some 415 }

/-- Query carrying the rating together with a core-material requirement. -/
def coreQuery : Query :=
  { Query.empty with
      rating_kva := some (.num 100)
      core_material := some "M5" }

/-- Record agreeing with `coreQuery` on both populated fields. -/
def coreRecord : TransformerSpecs :=
  { TransformerSpecs.empty with
      input_rating_kva := some 100
      output_core_material := some "M5" }

/-- Query with a rating and a high-voltage requirement. -/
def twoFieldQuery : Query :=
  { Query.empty with
      rating_kva := some (.num 100)
      high_voltage_v := some (.num 11000) }

/-- Record carrying only the rating (the high voltage is unset). -/
def ratingOnlyRecord : TransformerSpecs :=
  { TransformerSpecs.empty with input_rating_kva := some 100 }

/-- Record whose rating parsed to `0.0` while other fields parsed fine. -/
def zeroRatingRecord : TransformerSpecs :=
  { TransformerSpecs.empty with
      input_rating_kva := some 0
      input_high_voltage_v := some 11000
      output_vector_group := some "Dyn11" }

/-- Record with no rating but other fields populated. -/
def noRatingRecord : TransformerSpecs :=
  { TransformerSpecs.empty with
      input_high_voltage_v := some 11000
      output_vector_group := some "Dyn11" }

/-! Theorems. -/

/-- C1: for every pair of values of a weighted numeric field,
`calculate_numeric_similarity` returns 0.5 if either side is `None`;
otherwise, once each side is coerced to a plain number (for strings, the
first decimal number with comma treated as decimal point, unit text
discarded — `extractNumber`), it returns 1.0 if both numbers are zero, 0.0
if exactly one is zero, and otherwise, for `d = |a−b| / max(|a|,|b|)`,
returns 1.0 if `d ≤ 0.05`, 0.9 if `d ≤ 0.10`, 0.4 if `d ≤ 0.20`, and 0.0 if
`d > 0.20`. -/
theorem C1_numeric_similarity_spec :
    (∀ v t, calculate_numeric_similarity none v t = 1/2) ∧
    (∀ v t, calculate_numeric_similarity v none t = 1/2) ∧
    (∀ v1 v2 a b t, extractNumber v1 = some a → extractNumber v2 = some b →
      calculate_numeric_similarity (some v1) (some v2) t =
        if a = 0 ∧ b = 0 then 1
        else if (a = 0 ∧ b ≠ 0) ∨ (a ≠ 0 ∧ b = 0) then 0
        else if relDiff a b ≤ 5/100 then 1
        else if relDiff a b ≤ 10/100 then 9/10
        else if relDiff a b ≤ 20/100 then 4/10
        else 0) := by
  refine ⟨fun v t => rfl, fun v t => ?_, fun v1 v2 a b t h1 h2 => ?_⟩
  · cases v <;> rfl
  · simp only [calculate_numeric_similarity, h1, h2, relDiff]
    split_ifs <;> first | rfl | tauto

/-- Witness for C1 at concrete inputs: both sides coerce, the relative
difference is 10 %, and the score is the 0.9 band. -/
theorem C1_witness :
    extractNumber (.num 100) = some 100 ∧ extractNumber (.num 90) = some 90 ∧
    calculate_numeric_similarity (some (.num 100)) (some (.num 90)) (5/100) = 9/10 := by
  refine ⟨rfl, rfl, ?_⟩
  rw [C1_numeric_similarity_spec.2.2 (.num 100) (.num 90) 100 90 (5/100) rfl rfl]
  have hd : relDiff (100 : ℚ) 90 = 1/10 := by
    rw [relDiff, show |(100 : ℚ) - 90| = 10 by rw [abs_of_nonneg (by norm_num)]; norm_num,
      show |(100 : ℚ)| = 100 from abs_of_nonneg (by norm_num),
      show |(90 : ℚ)| = 90 from abs_of_nonneg (by norm_num),
      max_eq_left (by norm_num)]
    norm_num
  rw [hd]
  norm_num

/-- On two plain numbers the numeric comparator is exactly the band function
of the relative difference (the zero cases coincide with the bands because
`relDiff` is `0` for two zeroes and `1` when exactly one side is zero). -/
theorem calcNumSim_num_num (x y t : ℚ) :
    calculate_numeric_similarity (some (.num x)) (some (.num y)) t
      = bandScore (relDiff x y) := by
  simp only [calculate_numeric_similarity, extractNumber]
  by_cases hx : x = 0 <;> by_cases hy : y = 0
  · subst hx; subst hy
    rw [if_pos ⟨rfl, rfl⟩]
    have h0 : relDiff (0 : ℚ) 0 = 0 := by rw [relDiff]; simp
    rw [h0, bandScore]
    norm_num
  · subst hx
    rw [if_neg (fun h => hy h.2), if_pos (Or.inl rfl)]
    have h1 : relDiff (0 : ℚ) y = 1 := by
      rw [relDiff, zero_sub, abs_neg, abs_zero, max_eq_right (abs_nonneg y),
        div_self (abs_ne_zero.mpr hy)]
    rw [h1, bandScore]
    norm_num
  · subst hy
    rw [if_neg (fun h => hx h.1), if_pos (Or.inr rfl)]
    have h1 : relDiff x (0 : ℚ) = 1 := by
      rw [relDiff, sub_zero, abs_zero, max_eq_left (abs_nonneg x),
        div_self (abs_ne_zero.mpr hx)]
    rw [h1, bandScore]
    norm_num
  · rw [if_neg (fun h => hx h.1), if_neg (fun h => h.elim hx hy), bandScore, relDiff]

/-- The band function never increases when the relative difference grows. -/
theorem bandScore_antitone {d1 d2 : ℚ} (h : d1 ≤ d2) :
    bandScore d2 ≤ bandScore d1 := by
  rw [bandScore, bandScore]
  split_ifs <;> linarith

/-- Relative difference evaluated when the right value is the larger one. -/
theorem relDiff_of_le {x y : ℚ} (hx : 0 ≤ x) (hxy : x ≤ y) :
    relDiff x y = (y - x) / y := by
  rw [relDiff, abs_of_nonpos (by linarith), neg_sub, abs_of_nonneg hx,
    abs_of_nonneg (le_trans hx hxy), max_eq_right hxy]

/-- Relative difference evaluated when the left value is the larger one. -/
theorem relDiff_of_ge {x y : ℚ} (hy : 0 ≤ y) (hxy : y ≤ x) :
    relDiff x y = (x - y) / x := by
  rw [relDiff, abs_of_nonneg (by linarith), abs_of_nonneg hy,
    abs_of_nonneg (le_trans hy hxy), max_eq_left hxy]

/-- C5 counterexample: with query value `a = 100`, record values `b1 = 89.5`
and `b2 = 111` satisfy `|a − b1| ≤ |a − b2|`, yet `b1` scores `0.4` while
`b2` scores `0.9` — increasing the absolute difference increased the field
score, so monotonicity in `|a − b|` fails on the code. -/
theorem C5_counterexample :
    |(100 : ℚ) - 179/2| ≤ |(100 : ℚ) - 111| ∧
    calculate_numeric_similarity (some (.num 100)) (some (.num (179/2))) (5/100) = 4/10 ∧
    calculate_numeric_similarity (some (.num 100)) (some (.num 111)) (5/100) = 9/10 ∧
    ¬ (9/10 : ℚ) ≤ 4/10 := by
  refine ⟨?_, ?_, ?_, by norm_num⟩
  · rw [show |(100 : ℚ) - 179/2| = 21/2 by rw [abs_of_nonneg (by norm_num)]; norm_num,
      show |(100 : ℚ) - 111| = 11 by rw [abs_of_nonpos (by norm_num)]; norm_num]
    norm_num
  · rw [calcNumSim_num_num, relDiff_of_ge (by norm_num) (by norm_num), bandScore]
    norm_num
  · rw [calcNumSim_num_num, relDiff_of_le (by norm_num) (by norm_num), bandScore]
    norm_num

/-- C5 (amended): the numeric banding is monotonic in the RELATIVE
difference `|a−b| / max(|a|,|b|)`: for a fixed query value `a`, if record
value `b1` has a relative difference from `a` no larger than `b2`'s, then
`b1` scores at least as high as `b2` (the claim's ordering by absolute
difference `|a−b|` does not hold, see the counterexample). -/
theorem C5_band_monotone_relative (a b1 b2 t1 t2 : ℚ)
    (h : relDiff a b1 ≤ relDiff a b2) :
    calculate_numeric_similarity (some (.num a)) (some (.num b2)) t2 ≤
      calculate_numeric_similarity (some (.num a)) (some (.num b1)) t1 := by
  rw [calcNumSim_num_num, calcNumSim_num_num]
  exact bandScore_antitone h

/-- Witness for C5 (amended) at `a = 100`, `b1 = 100`, `b2 = 120`. -/
theorem C5_witness :
    relDiff (100 : ℚ) 100 ≤ relDiff (100 : ℚ) 120 ∧
    calculate_numeric_similarity (some (.num 100)) (some (.num 120)) (5/100) ≤
      calculate_numeric_similarity (some (.num 100)) (some (.num 100)) (5/100) := by
  have h : relDiff (100 : ℚ) 100 ≤ relDiff (100 : ℚ) 120 := by
    rw [show relDiff (100 : ℚ) 100 = 0 by rw [relDiff]; simp,
      relDiff_of_le (by norm_num) (by norm_num)]
    norm_num
  exact ⟨h, C5_band_monotone_relative 100 100 120 (5/100) (5/100) h⟩

/-- A `takeWhile` front concatenated with the drop of its length restores
the list. -/
theorem takeWhile_append_drop_self {α : Type} (p : α → Bool) (l : List α) :
    l.takeWhile p ++ l.drop (l.takeWhile p).length = l := by
  induction l with
  | nil => rfl
  | cons a l ih =>
    by_cases h : p a
    · simp [List.takeWhile_cons, h, ih]
    · simp [List.takeWhile_cons, h]

/-- A successful full-string match of `^([a-z]+)(\d*)$` decomposes the
string as letters ++ digits. -/
theorem vgParse_eq_append {cs b d : List Char} (h : vgParse cs = some (b, d)) :
    cs = b ++ d := by
  rw [vgParse] at h
  split_ifs at h with h1 h2
  injection h with h3
  cases h3
  exact (takeWhile_append_drop_self _ _).symm

/-- C6: `calculate_vector_group_similarity` returns 0.5 if either side is
`None`; 1.0 when the lowercased, trimmed strings are equal; 0.8 when both
normalised strings match letters-then-digits with the same alphabetic
connection prefix but differing trailing clock-number digits (in particular
"Dyn11" vs "Dyn5" scores exactly 0.8); and 0.0 in every other case (either
normalised string failing the letters-then-digits shape, or the alphabetic
parts differing). -/
theorem C6_vector_group_spec :
    (∀ v, calculate_vector_group_similarity none v = 1/2) ∧
    (∀ v, calculate_vector_group_similarity v none = 1/2) ∧
    (∀ s1 s2, lowerStrip s1 = lowerStrip s2 →
      calculate_vector_group_similarity (some s1) (some s2) = 1) ∧
    (∀ s1 s2 b d1 d2, vgParse (lowerStrip s1) = some (b, d1) →
      vgParse (lowerStrip s2) = some (b, d2) → d1 ≠ d2 →
      calculate_vector_group_similarity (some s1) (some s2) = 8/10) ∧
    (∀ s1 s2, lowerStrip s1 ≠ lowerStrip s2 →
      (∀ b1 d1 b2 d2, vgParse (lowerStrip s1) = some (b1, d1) →
        vgParse (lowerStrip s2) = some (b2, d2) → b1 ≠ b2) →
      calculate_vector_group_similarity (some s1) (some s2) = 0) ∧
    calculate_vector_group_similarity (some "Dyn11") (some "Dyn5") = 8/10 := by
  have hcase : ∀ s1 s2 b d1 d2, vgParse (lowerStrip s1) = some (b, d1) →
      vgParse (lowerStrip s2) = some (b, d2) → d1 ≠ d2 →
      calculate_vector_group_similarity (some s1) (some s2) = 8/10 := by
    intro s1 s2 b d1 d2 h1 h2 hd
    have hne : lowerStrip s1 ≠ lowerStrip s2 := by
      rw [vgParse_eq_append h1, vgParse_eq_append h2]
      intro hcontra
      exact hd (List.append_cancel_left hcontra)
    simp only [calculate_vector_group_similarity, if_neg hne, h1, h2]
    rw [if_pos trivial]
  refine ⟨fun v => rfl, fun v => ?_, fun s1 s2 h => ?_, hcase, fun s1 s2 hne hbase => ?_, ?_⟩
  · cases v <;> rfl
  · simp only [calculate_vector_group_similarity, if_pos h]
  · simp only [calculate_vector_group_similarity, if_neg hne]
    rcases hp1 : vgParse (lowerStrip s1) with _ | p1 <;>
      rcases hp2 : vgParse (lowerStrip s2) with _ | p2 <;>
      simp only []
    exact if_neg (hbase p1.1 p1.2 p2.1 p2.2 (by rw [hp1]) (by rw [hp2]))
  · exact hcase "Dyn11" "Dyn5" "dyn".data "11".data "5".data
      (by decide) (by decide) (by decide)

/-- Witness for C6: the 0.8 clause applied at the spec example
"Dyn11" vs "Dyn5". -/
theorem C6_witness :
    vgParse (lowerStrip "Dyn11") = some ("dyn".data, "11".data) ∧
    vgParse (lowerStrip "Dyn5") = some ("dyn".data, "5".data) ∧
    calculate_vector_group_similarity (some "Dyn11") (some "Dyn5") = 8/10 :=
  ⟨by decide, by decide,
    C6_vector_group_spec.2.2.2.1 "Dyn11" "Dyn5" "dyn".data "11".data "5".data
      (by decide) (by decide) (by decide)⟩

/-- The string comparator gives a full score on identical values. -/
theorem css_refl (s : String) :
    calculate_string_similarity (some s) (some s) = 1 := by
  simp [calculate_string_similarity]

/-- The vector-group comparator gives a full score on identical values. -/
theorem cvgs_refl (s : String) :
    calculate_vector_group_similarity (some s) (some s) = 1 := by
  simp [calculate_vector_group_similarity]

/-- The numeric comparator gives a full score on identical numbers. -/
theorem calcNumSim_refl (x t : ℚ) :
    calculate_numeric_similarity (some (.num x)) (some (.num x)) t = 1 := by
  rw [calcNumSim_num_num, show relDiff x x = 0 by rw [relDiff]; simp, bandScore]
  norm_num

/-- Every weight of the table is positive. -/
theorem WEIGHTS_pos (f : Field) : 0 < WEIGHTS f := by
  cases f <;> norm_num [WEIGHTS]

/-- Every weighted field occurs in the iteration order. -/
theorem mem_fieldOrder (f : Field) : f ∈ fieldOrder := by
  cases f <;> simp [fieldOrder]

/-- The iteration order lists each weighted field exactly once. -/
theorem fieldOrder_nodup : fieldOrder.Nodup := by decide

/-- A field carried by the query yields a present score entry. -/
theorem fieldScore_isSome_of_hasField {q : Query} (d : TransformerSpecs)
    {f : Field} (hq : Query.hasField q f = true) :
    (fieldScore q d f).isSome = true := by
  cases f <;> simpa [fieldScore, Query.hasField] using hq

/-- Under agreement with the record, every present field scores a full 1. -/
theorem fieldScore_agree {q : Query} {d : TransformerSpecs}
    (hag : QueryAgrees q d) :
    ∀ f s, fieldScore q d f = some s → s = 1 := by
  obtain ⟨h1, h2, h3, h4, h5, h6, h7, h8, h9, h10, h11, h12⟩ := hag
  intro f s hs
  cases f
  all_goals simp only [fieldScore, Option.map_eq_some'] at hs
  all_goals obtain ⟨v, hv, rfl⟩ := hs
  · obtain ⟨x, hx, rfl⟩ := h1 v hv
    rw [hx]
    exact calcNumSim_refl x _
  · obtain ⟨x, hx, rfl⟩ := h2 v hv
    rw [hx]
    exact calcNumSim_refl x _
  · obtain ⟨x, hx, rfl⟩ := h3 v hv
    rw [hx]
    exact calcNumSim_refl x _
  · rw [h4 v hv]
    exact cvgs_refl v
  · obtain ⟨x, hx, rfl⟩ := h5 v hv
    rw [hx]
    exact calcNumSim_refl x _
  · obtain ⟨x, hx, rfl⟩ := h6 v hv
    rw [hx]
    exact calcNumSim_refl x _
  · obtain ⟨x, hx, rfl⟩ := h7 v hv
    rw [hx]
    exact calcNumSim_refl x _
  · rw [h8 v hv]
    exact css_refl v
  · obtain ⟨x, hx, rfl⟩ := h9 v hv
    rw [hx]
    exact calcNumSim_refl x _
  · rw [h10 v hv]
    exact css_refl v
  · rw [h11 v hv]
    exact css_refl v
  · rw [h12] at hv
    exact Option.noConfusion hv

/-- Splitting the accumulated score over a decomposition of the entries. -/
theorem scoreSum_append (a b : List (Option ℚ × ℚ)) :
    scoreSum (a ++ b) = scoreSum a + scoreSum b := by
  simp [scoreSum]

/-- Splitting the accumulated weight over a decomposition of the entries. -/
theorem weightSum_append (a b : List (Option ℚ × ℚ)) :
    weightSum (a ++ b) = weightSum a + weightSum b := by
  simp [weightSum]

/-- The accumulated weight is nonnegative when all weights are. -/
theorem weightSum_nonneg {l : List (Option ℚ × ℚ)}
    (h : ∀ e ∈ l, 0 ≤ e.2) : 0 ≤ weightSum l := by
  refine List.sum_nonneg ?_
  intro x hx
  obtain ⟨e, he, rfl⟩ := List.mem_map.mp hx
  rcases e with ⟨_ | s, w⟩
  · exact le_refl 0
  · exact h _ he

/-- The accumulated weight is positive once some entry is present and all
weights are positive. -/
theorem weightSum_pos {l : List (Option ℚ × ℚ)}
    (hw : ∀ e ∈ l, 0 < e.2) (hs : ∃ e ∈ l, e.1.isSome = true) :
    0 < weightSum l := by
  obtain ⟨e, he, hsome⟩ := hs
  obtain ⟨a, b, rfl⟩ := List.append_of_mem he
  rw [weightSum_append]
  have hb : weightSum (e :: b) = e.2 + weightSum b := by
    rcases e with ⟨_ | s, w⟩
    · exact absurd hsome (by simp)
    · simp [weightSum, entryWeight]
  rw [hb]
  have h1 : 0 ≤ weightSum a := weightSum_nonneg fun x hx => (hw x (by simp [hx])).le
  have h2 : 0 ≤ weightSum b := weightSum_nonneg fun x hx => (hw x (by simp [hx])).le
  have h3 : 0 < e.2 := hw e (by simp)
  linarith

/-- If every present field scores 1, the score total equals the weight
total. -/
theorem scoreSum_eq_weightSum {l : List (Option ℚ × ℚ)}
    (h : ∀ e ∈ l, ∀ s, e.1 = some s → s = 1) :
    scoreSum l = weightSum l := by
  rw [scoreSum, weightSum]
  refine congrArg List.sum (List.map_congr_left ?_)
  intro e he
  rcases e with ⟨_ | s, w⟩
  · rfl
  · rw [h _ he s rfl]
    simp [entryScore, entryWeight]

/-- A non-empty query agreeing with a record on every field it carries
receives total similarity exactly 1. -/
theorem calculate_similarity_agree_eq_one {q : Query} {d : TransformerSpecs}
    (hag : QueryAgrees q d) (hne : ∃ f, Query.hasField q f = true) :
    (calculate_similarity q d).1 = 1 := by
  have hw : ∀ e ∈ simEntries q d, 0 < e.2 := by
    intro e he
    obtain ⟨f, _, rfl⟩ := List.mem_map.mp he
    exact WEIGHTS_pos f
  have hsome : ∃ e ∈ simEntries q d, e.1.isSome = true := by
    obtain ⟨f, hf⟩ := hne
    exact ⟨(fieldScore q d f, WEIGHTS f),
      List.mem_map.mpr ⟨f, mem_fieldOrder f, rfl⟩,
      fieldScore_isSome_of_hasField d hf⟩
  have hpos := weightSum_pos hw hsome
  have hall : ∀ e ∈ simEntries q d, ∀ s, e.1 = some s → s = 1 := by
    intro e he s hse
    obtain ⟨f, _, rfl⟩ := List.mem_map.mp he
    exact fieldScore_agree hag f s hse
  rw [calculate_similarity]
  simp only [if_pos hpos]
  rw [scoreSum_eq_weightSum hall, div_self (ne_of_gt hpos)]

/-- The spec's three-field example scores exactly 1. -/
theorem example3_score_one :
    (calculate_similarity exampleQuery3 exampleRecord3).1 = 1 := by
  norm_num [calculate_similarity, simEntries, fieldOrder, fieldScore, exampleQuery3,
    exampleRecord3, Query.empty, TransformerSpecs.empty, scoreSum, weightSum, entryScore,
    entryWeight, WEIGHTS, TOLERANCES, numOpt, calculate_numeric_similarity, extractNumber,
    TransformerSpecs.rating_kva, TransformerSpecs.high_voltage_v,
    TransformerSpecs.low_voltage_v]

/-- C2: the claim is broken by the `core_material` field.  The scorer reads
the design side with `getattr(design_specs, param, None)`, and
`TransformerSpecs` exposes no attribute named `core_material` (its
compatibility-property block covers the other eleven weighted names only),
so the design side of `core_material` is always `None` and the field scores
the neutral 0.5 instead of 1.0.  A query equal to its record on
`rating_kva` and `core_material` therefore totals
`(1·1 + 0.3·0.5) / 1.3 = 23/26 ≠ 1`.  The claim's concrete three-field
example avoids `core_material` and does score exactly 1. -/
theorem C2_core_material_lookup_defeats_claim :
    (calculate_similarity coreQuery coreRecord).1 = 23/26 ∧
    (23/26 : ℚ) ≠ 1 ∧
    (calculate_similarity exampleQuery3 exampleRecord3).1 = 1 := by
  refine ⟨?_, by norm_num, example3_score_one⟩
  norm_num [calculate_similarity, simEntries, fieldOrder, fieldScore, coreQuery, coreRecord,
    Query.empty, TransformerSpecs.empty, scoreSum, weightSum, entryScore, entryWeight,
    WEIGHTS, TOLERANCES, numOpt, calculate_numeric_similarity, calculate_string_similarity,
    extractNumber, TransformerSpecs.rating_kva]

/-- Erasing a field removes its score entry. -/
theorem fieldScore_eraseField_self (q : Query) (d : TransformerSpecs) (f : Field) :
    fieldScore (q.eraseField f) d f = none := by
  cases f <;> simp [fieldScore, Query.eraseField]

/-- Erasing one field leaves every other field's score entry unchanged. -/
theorem fieldScore_eraseField_other (q : Query) (d : TransformerSpecs)
    {f g : Field} (h : g ≠ f) :
    fieldScore (q.eraseField f) d g = fieldScore q d g := by
  cases f <;> cases g <;> first
    | exact absurd rfl h
    | simp [fieldScore, Query.eraseField]

/-- A field the query carries but the design lacks scores the neutral 0.5. -/
theorem fieldScore_missing (q : Query) (d : TransformerSpecs) (f : Field)
    (hq : Query.hasField q f = true) (hd : designMissing d f) :
    fieldScore q d f = some (1/2) := by
  cases f <;>
    simp only [Query.hasField, Option.isSome_iff_exists] at hq <;>
    obtain ⟨v, hv⟩ := hq <;>
    simp only [designMissing] at hd <;>
    simp_all [fieldScore, numOpt, calculate_numeric_similarity,
      calculate_vector_group_similarity, calculate_string_similarity]

/-- All entry weights produced for a query/design pair are positive. -/
theorem simEntries_wpos (q : Query) (d : TransformerSpecs) :
    ∀ e ∈ simEntries q d, 0 < e.2 := by
  intro e he
  obtain ⟨f, _, rfl⟩ := List.mem_map.mp he
  exact WEIGHTS_pos f

/-- Peeling one entry off the accumulated score. -/
theorem scoreSum_cons (e : Option ℚ × ℚ) (l : List (Option ℚ × ℚ)) :
    scoreSum (e :: l) = entryScore e + scoreSum l := by
  simp [scoreSum]

/-- Peeling one entry off the accumulated weight. -/
theorem weightSum_cons (e : Option ℚ × ℚ) (l : List (Option ℚ × ℚ)) :
    weightSum (e :: l) = entryWeight e + weightSum l := by
  simp [weightSum]

/-- When all weights are positive a vanishing weight total forces a
vanishing score total (no entry was present at all). -/
theorem scoreSum_zero_of_weightSum_zero {l : List (Option ℚ × ℚ)}
    (hw : ∀ e ∈ l, 0 < e.2) (h : weightSum l = 0) : scoreSum l = 0 := by
  induction l with
  | nil => rfl
  | cons e t ih =>
    rw [weightSum_cons] at h
    rw [scoreSum_cons]
    have hwt : ∀ x ∈ t, 0 < x.2 := fun x hx => hw x (List.mem_cons_of_mem e hx)
    rcases e with ⟨_ | sc, w⟩
    · rw [show entryScore (none, w) = 0 from rfl]
      rw [show entryWeight (none, w) = 0 from rfl, zero_add] at h
      rw [ih hwt h, add_zero]
    · exfalso
      rw [show entryWeight (some sc, w) = w from rfl] at h
      have h1 : 0 < w := hw (some sc, w) (List.mem_cons_self _ _)
      have h2 : 0 ≤ weightSum t :=
        weightSum_nonneg fun x hx => (hwt x hx).le
      linarith

/-- Each weighted field sits at a unique position of the iteration order. -/
theorem fieldOrder_decomp (f : Field) :
    ∃ a b, fieldOrder = a ++ f :: b ∧ f ∉ a ∧ f ∉ b := by
  obtain ⟨a, b, hab⟩ := List.append_of_mem (mem_fieldOrder f)
  have hnd := fieldOrder_nodup
  rw [hab, List.nodup_append] at hnd
  exact ⟨a, b, hab, fun hfa => hnd.2.2 hfa (List.mem_cons_self f b),
    (List.nodup_cons.mp hnd.2.1).1⟩

/-- Removing from the query a field the design lacks subtracts the neutral
half-weight contribution from the score total and the full weight from the
weight total. -/
theorem simSums_eraseField (q : Query) (d : TransformerSpecs) (f : Field)
    (hq : Query.hasField q f = true) (hd : designMissing d f) :
    scoreSum (simEntries q d)
        = scoreSum (simEntries (q.eraseField f) d) + (1/2) * WEIGHTS f ∧
      weightSum (simEntries q d)
        = weightSum (simEntries (q.eraseField f) d) + WEIGHTS f := by
  obtain ⟨a, b, hab, hfa, hfb⟩ := fieldOrder_decomp f
  have hmapa : a.map (fun g => (fieldScore (q.eraseField f) d g, WEIGHTS g))
      = a.map (fun g => (fieldScore q d g, WEIGHTS g)) :=
    List.map_congr_left fun g hg => by
      rw [fieldScore_eraseField_other q d (fun h => hfa (by rw [← h]; exact hg))]
  have hmapb : b.map (fun g => (fieldScore (q.eraseField f) d g, WEIGHTS g))
      = b.map (fun g => (fieldScore q d g, WEIGHTS g)) :=
    List.map_congr_left fun g hg => by
      rw [fieldScore_eraseField_other q d (fun h => hfb (by rw [← h]; exact hg))]
  have hself := fieldScore_eraseField_self q d f
  have hf := fieldScore_missing q d f hq hd
  constructor
  · rw [simEntries, simEntries, hab, List.map_append, List.map_cons,
      List.map_append, List.map_cons, scoreSum_append, scoreSum_append,
      scoreSum_cons, scoreSum_cons, hmapa, hmapb, hself, hf]
    rw [show entryScore (some (1/2), WEIGHTS f) = (1/2) * WEIGHTS f from rfl,
      show entryScore (none, WEIGHTS f) = 0 from rfl]
    ring
  · rw [simEntries, simEntries, hab, List.map_append, List.map_cons,
      List.map_append, List.map_cons, weightSum_append, weightSum_append,
      weightSum_cons, weightSum_cons, hmapa, hmapb, hself, hf]
    rw [show entryWeight (some (1/2), WEIGHTS f) = WEIGHTS f from rfl,
      show entryWeight (none, WEIGHTS f) = 0 from rfl]
    ring

/-- C4 counterexample: the query `{rating_kva: 100, high_voltage_v: 11000}`
contains the weighted field `high_voltage_v`, whose value the record (only
a rating of 100) lacks.  With the field the aggregate is
`(1·1 + 0.9·0.5)/1.9 = 29/38`; removing the field yields `1`.  Removing a
query field the record lacks therefore DOES change the aggregate score. -/
theorem C4_counterexample :
    Query.hasField twoFieldQuery .high_voltage_v = true ∧
    designMissing ratingOnlyRecord .high_voltage_v ∧
    (calculate_similarity twoFieldQuery ratingOnlyRecord).1 = 29/38 ∧
    (calculate_similarity (twoFieldQuery.eraseField .high_voltage_v)
        ratingOnlyRecord).1 = 1 ∧
    (29/38 : ℚ) ≠ 1 := by
  refine ⟨rfl, rfl, ?_, ?_, by norm_num⟩
  · norm_num [calculate_similarity, simEntries, fieldOrder, fieldScore, twoFieldQuery,
      ratingOnlyRecord, Query.empty, TransformerSpecs.empty, scoreSum, weightSum,
      entryScore, entryWeight, WEIGHTS, TOLERANCES, numOpt, calculate_numeric_similarity,
      extractNumber, TransformerSpecs.rating_kva, TransformerSpecs.high_voltage_v]
  · norm_num [calculate_similarity, simEntries, fieldOrder, fieldScore, Query.eraseField,
      twoFieldQuery, ratingOnlyRecord, Query.empty, TransformerSpecs.empty, scoreSum,
      weightSum, entryScore, entryWeight, WEIGHTS, TOLERANCES, numOpt,
      calculate_numeric_similarity, extractNumber, TransformerSpecs.rating_kva]

/-- C4 (amended): if the query contains a weighted field whose value the
record lacks, that field contributes the neutral score 0.5 times its weight
to the weighted sum and its full weight to the normalising total, so the
aggregate with the field is `(S + 0.5·w)/(W + w)` where `(S, W)` are the
totals without it; removing the field leaves the aggregate unchanged
exactly when the remaining query still carries some weighted field and its
aggregate is exactly 0.5 (not in general, as the counterexample shows). -/
theorem C4_missing_field_half_weight (q : Query) (d : TransformerSpecs) (f : Field)
    (hq : Query.hasField q f = true) (hd : designMissing d f) :
    (calculate_similarity q d).1 =
      (scoreSum (simEntries (q.eraseField f) d) + (1/2) * WEIGHTS f) /
        (weightSum (simEntries (q.eraseField f) d) + WEIGHTS f) ∧
    ((calculate_similarity q d).1 = (calculate_similarity (q.eraseField f) d).1 ↔
      0 < weightSum (simEntries (q.eraseField f) d) ∧
        (calculate_similarity (q.eraseField f) d).1 = 1/2) := by
  obtain ⟨hS, hW⟩ := simSums_eraseField q d f hq hd
  have hw : 0 < WEIGHTS f := WEIGHTS_pos f
  have hW0 : 0 ≤ weightSum (simEntries (q.eraseField f) d) :=
    weightSum_nonneg fun e he => (simEntries_wpos _ d e he).le
  have hfullpos : 0 < weightSum (simEntries q d) := by rw [hW]; linarith
  have hcalc : (calculate_similarity q d).1 =
      (scoreSum (simEntries (q.eraseField f) d) + (1/2) * WEIGHTS f) /
        (weightSum (simEntries (q.eraseField f) d) + WEIGHTS f) := by
    rw [calculate_similarity, if_pos hfullpos, hS, hW]
  refine ⟨hcalc, ?_⟩
  set S := scoreSum (simEntries (q.eraseField f) d) with hSdef
  set W := weightSum (simEntries (q.eraseField f) d) with hWdef
  set w := WEIGHTS f with hwdef
  rcases eq_or_lt_of_le hW0 with hWz | hWp
  · have hSz : S = 0 := scoreSum_zero_of_weightSum_zero (simEntries_wpos _ d) hWz.symm
    have hcalc2 : (calculate_similarity (q.eraseField f) d).1 = 0 := by
      rw [calculate_similarity, if_neg (by rw [← hWdef, ← hWz]; exact lt_irrefl 0)]
    rw [hcalc, hcalc2, hSz, ← hWz]
    constructor
    · intro h
      exfalso
      rw [zero_add, zero_add, mul_div_assoc, div_self (ne_of_gt hw), mul_one] at h
      norm_num at h
    · rintro ⟨h0, _⟩
      exact absurd h0 (lt_irrefl 0)
  · have hcalc2 : (calculate_similarity (q.eraseField f) d).1 = S / W := by
      rw [calculate_similarity, if_pos hWp]
    rw [hcalc, hcalc2]
    have hWne : W ≠ 0 := ne_of_gt hWp
    have hWwne : W + w ≠ 0 := by positivity
    constructor
    · intro h
      rw [div_eq_div_iff hWwne hWne] at h
      have h2 : w * S = w * ((1/2) * W) := by ring_nf; ring_nf at h; linarith
      have h3 : S = (1/2) * W := mul_left_cancel₀ (ne_of_gt hw) h2
      refine ⟨hWp, ?_⟩
      rw [h3, mul_div_assoc, div_self hWne, mul_one]
    · rintro ⟨-, hhalf⟩
      have h3 : S = (1/2) * W := by
        rw [div_eq_iff hWne] at hhalf
        linarith
      rw [h3, show (1/2) * W + (1/2) * w = (1/2) * (W + w) by ring,
        mul_div_assoc, div_self hWwne, mul_one,
        mul_div_assoc, div_self hWne, mul_one]

/-- Witness for C4 (amended): removing the missing `high_voltage_v` field
from `{rating_kva: 100, high_voltage_v: 11000}` against the empty record,
whose remaining aggregate is exactly the neutral 0.5. -/
theorem C4_witness :
    Query.hasField twoFieldQuery .high_voltage_v = true ∧
    designMissing TransformerSpecs.empty .high_voltage_v ∧
    ((calculate_similarity twoFieldQuery TransformerSpecs.empty).1 =
        (calculate_similarity (twoFieldQuery.eraseField .high_voltage_v)
          TransformerSpecs.empty).1 ↔
      0 < weightSum (simEntries (twoFieldQuery.eraseField .high_voltage_v)
          TransformerSpecs.empty) ∧
        (calculate_similarity (twoFieldQuery.eraseField .high_voltage_v)
          TransformerSpecs.empty).1 = 1/2) :=
  ⟨rfl, rfl,
    (C4_missing_field_half_weight twoFieldQuery TransformerSpecs.empty
      .high_voltage_v rfl rfl).2⟩

/-- Membership in the pre-sort match list characterised: exactly the match
objects of catalog designs whose score reaches the threshold. -/
theorem mem_preMatches {q : Query} {designs : List TransformerSpecs}
    {min_score : ℚ} {m : TransformerMatch} :
    m ∈ preMatches q designs min_score ↔
      ∃ d ∈ designs, min_score ≤ (calculate_similarity q d).1 ∧ m = mkMatch q d := by
  rw [preMatches, List.mem_filterMap]
  constructor
  · rintro ⟨d, hd, hm⟩
    split_ifs at hm with hsc
    · exact ⟨d, hd, hsc, (Option.some_inj.mp hm).symm⟩
  · rintro ⟨d, hd, hsc, rfl⟩
    exact ⟨d, hd, by rw [if_pos hsc]⟩

/-- C3: the ranker returns at most `max_results` matches, sorted by stored
similarity score in descending order, and every returned match stems from a
design whose computed score reaches `min_score`; the match stores that score
rounded to four decimals and carries the per-field breakdown of its own
scoring run. -/
theorem C3_ranker_contract (q : Query) (designs : List TransformerSpecs)
    (max_results : ℕ) (min_score : ℚ) :
    (find_similar_designs q designs max_results min_score).length ≤ max_results ∧
    List.Pairwise (fun a b => b.similarity_score ≤ a.similarity_score)
      (find_similar_designs q designs max_results min_score) ∧
    ∀ m ∈ find_similar_designs q designs max_results min_score,
      min_score ≤ (calculate_similarity q m.specs).1 ∧
      m.similarity_score = pyRound (calculate_similarity q m.specs).1 4 ∧
      m.match_details = (calculate_similarity q m.specs).2 := by
  refine ⟨?_, ?_, ?_⟩
  · rw [find_similar_designs, List.length_take]
    exact min_le_left _ _
  · have hsorted : List.Pairwise matchGE
        (List.insertionSort matchGE (preMatches q designs min_score)) :=
      List.sorted_insertionSort matchGE (preMatches q designs min_score)
    exact List.Pairwise.sublist (List.take_sublist _ _) hsorted
  · intro m hm
    have hm1 : m ∈ List.insertionSort matchGE (preMatches q designs min_score) :=
      List.take_subset _ _ hm
    have hm2 : m ∈ preMatches q designs min_score :=
      (List.perm_insertionSort matchGE _).mem_iff.mp hm1
    obtain ⟨d, _, hsc, rfl⟩ := mem_preMatches.mp hm2
    exact ⟨hsc, rfl, rfl⟩

/-- Witness for C3: a one-record catalog at the spec's example query; the
single returned match satisfies the contract at concrete values. -/
theorem C3_witness :
    (find_similar_designs exampleQuery3 [exampleRecord3] 2 (3/10)).length ≤ 2 ∧
    (3/10 : ℚ) ≤ (calculate_similarity exampleQuery3
        (mkMatch exampleQuery3 exampleRecord3).specs).1 := by
  have h := C3_ranker_contract exampleQuery3 [exampleRecord3] 2 (3/10)
  refine ⟨h.1, ?_⟩
  have hpre : preMatches exampleQuery3 [exampleRecord3] (3/10)
      = [mkMatch exampleQuery3 exampleRecord3] := by
    rw [preMatches, List.filterMap_cons, List.filterMap_nil,
      if_pos (by rw [example3_score_one]; norm_num)]
  have hfind : find_similar_designs exampleQuery3 [exampleRecord3] 2 (3/10)
      = [mkMatch exampleQuery3 exampleRecord3] := by
    rw [find_similar_designs, hpre]
    rfl
  have hmem : mkMatch exampleQuery3 exampleRecord3
      ∈ find_similar_designs exampleQuery3 [exampleRecord3] 2 (3/10) := by
    rw [hfind]
    exact List.mem_singleton_self _
  exact (h.2.2 _ hmem).1

/-- Boolean test for a fixed stored similarity score. -/
def scoreEq (s : ℚ) (m : TransformerMatch) : Bool :=
  decide (m.similarity_score = s)

/-- Filtering a prefix of a list is taking a prefix of the filtered list. -/
theorem filter_take {α : Type} (p : α → Bool) :
    ∀ (l : List α) (n : ℕ), ∃ k, (l.take n).filter p = (l.filter p).take k := by
  intro l
  induction l with
  | nil => exact fun n => ⟨0, by simp⟩
  | cons a t ih =>
    intro n
    cases n with
    | zero => exact ⟨0, by simp⟩
    | succ n =>
      obtain ⟨k, hk⟩ := ih n
      by_cases hpa : p a
      · exact ⟨k + 1, by simp [List.filter_cons, hpa, hk]⟩
      · exact ⟨k, by simp [List.filter_cons, hpa, hk]⟩

/-- Inserting a match into a sorted tail commutes with filtering one score
class: the walked-over elements all carry strictly larger scores. -/
theorem filter_scoreEq_orderedInsert (s : ℚ) (m : TransformerMatch) :
    ∀ l : List TransformerMatch,
      (List.orderedInsert matchGE m l).filter (scoreEq s)
        = if scoreEq s m then m :: l.filter (scoreEq s) else l.filter (scoreEq s) := by
  intro l
  induction l with
  | nil => by_cases hpm : scoreEq s m <;> simp [List.orderedInsert, List.filter, hpm]
  | cons b t ih =>
    by_cases hr : matchGE m b
    · by_cases hpm : scoreEq s m <;>
        simp [List.orderedInsert, hr, List.filter_cons, hpm]
    · have hlt : m.similarity_score < b.similarity_score := by
        rw [matchGE] at hr
        exact lt_of_not_le hr
      by_cases hpm : scoreEq s m
      · have hpb : scoreEq s b = false := by
          simp only [scoreEq, decide_eq_true_eq] at hpm
          simp only [scoreEq, decide_eq_false_iff_not]
          exact fun hbs => hlt.ne' (hbs.trans hpm.symm)
        simp [List.orderedInsert, hr, List.filter_cons, hpb, hpm, ih]
      · simp [List.orderedInsert, hr, List.filter_cons, hpm, ih]

/-- The descending stable sort preserves each score class verbatim. -/
theorem filter_scoreEq_insertionSort (s : ℚ) :
    ∀ l : List TransformerMatch,
      (List.insertionSort matchGE l).filter (scoreEq s) = l.filter (scoreEq s) := by
  intro l
  induction l with
  | nil => rfl
  | cons a t ih =>
    rw [List.insertionSort, filter_scoreEq_orderedInsert, List.filter_cons, ih]

/-- C10: among matches with equal stored similarity scores the ranker
preserves catalog order — for every score class, the returned matches of
that score are an initial segment of the pre-sort (catalog-ordered) match
list restricted to that score, because the descending sort is stable and
the truncation takes a prefix. -/
theorem C10_equal_scores_catalog_order (q : Query) (designs : List TransformerSpecs)
    (max_results : ℕ) (min_score : ℚ) (s : ℚ) :
    ∃ k, (find_similar_designs q designs max_results min_score).filter (scoreEq s)
      = ((preMatches q designs min_score).filter (scoreEq s)).take k := by
  obtain ⟨k, hk⟩ := filter_take (scoreEq s)
    (List.insertionSort matchGE (preMatches q designs min_score)) max_results
  exact ⟨k, by rw [find_similar_designs, hk, filter_scoreEq_insertionSort]⟩

/-- The rating guard holds exactly for a present, non-zero rating. -/
theorem ratingOk_iff {s : TransformerSpecs} :
    ratingOk s = true ↔ ∃ x, s.input_rating_kva = some x ∧ x ≠ 0 := by
  rw [ratingOk]
  rcases h : s.input_rating_kva with _ | x
  · simp
  · simp

/-- A kept parse outcome is a parsed record passing the rating guard. -/
theorem keepRecord_eq_some {o : Option TransformerSpecs} {s : TransformerSpecs} :
    keepRecord o = some s ↔ o = some s ∧ ratingOk s = true := by
  rcases o with _ | s'
  · simp [keepRecord]
  · rw [keepRecord]
    by_cases h : ratingOk s' = true
    · simp only [if_pos h]
      constructor
      · rintro h2
        obtain rfl := Option.some_inj.mp h2
        exact ⟨rfl, h⟩
      · rintro ⟨h2, -⟩
        rw [Option.some_inj.mp h2]
    · rw [if_neg h]
      constructor
      · rintro h2
        exact Option.noConfusion h2
      · rintro ⟨h2, h3⟩
        rw [Option.some_inj.mp h2] at h
        exact absurd h3 h

/-- C7: every record that enters the catalog has its rating set — a parsed
record lacking `input_rating_kva` is excluded by `load_all_designs` no
matter how many other fields parsed, and the bulk refresh skips such a
record, counting it as exactly one failure. -/
theorem C7_rating_required :
    (∀ parsed, ∀ s ∈ load_all_designs parsed, ∃ x, s.input_rating_kva = some x) ∧
    (∀ parsed (s : TransformerSpecs), s.input_rating_kva = none →
      s ∉ load_all_designs parsed) ∧
    (∀ parsed (s : TransformerSpecs), s.input_rating_kva = none →
      load_all_designs (parsed ++ [some s]) = load_all_designs parsed ∧
      refresh_counts (parsed ++ [some s])
        = ((refresh_counts parsed).1, (refresh_counts parsed).2 + 1)) := by
  have hko : ∀ (s : TransformerSpecs), s.input_rating_kva = none →
      keepRecord (some s) = none := by
    intro s hs
    rw [keepRecord, if_neg]
    rw [ratingOk, hs]
    exact Bool.false_ne_true
  refine ⟨?_, ?_, ?_⟩
  · intro parsed s hs
    obtain ⟨o, _, hk⟩ := List.mem_filterMap.mp hs
    obtain ⟨x, hx, -⟩ := ratingOk_iff.mp (keepRecord_eq_some.mp hk).2
    exact ⟨x, hx⟩
  · intro parsed s hs hmem
    obtain ⟨o, _, hk⟩ := List.mem_filterMap.mp hmem
    obtain ⟨x, hx, -⟩ := ratingOk_iff.mp (keepRecord_eq_some.mp hk).2
    rw [hs] at hx
    exact Option.noConfusion hx
  · intro parsed s hs
    constructor
    · rw [load_all_designs, load_all_designs, List.filterMap_append]
      rw [show List.filterMap keepRecord [some s] = [] by
        rw [List.filterMap_cons, hko s hs, List.filterMap_nil]]
      rw [List.append_nil]
    · rw [refresh_counts, refresh_counts, List.countP_append, List.countP_append]
      rw [show List.countP (fun o => (keepRecord o).isSome) [some s] = 0 by
        simp [List.countP_cons, hko s hs]]
      rw [show List.countP (fun o => (keepRecord o).isNone) [some s] = 1 by
        simp [List.countP_cons, hko s hs]]
      simp

/-- Witness for C7: appending a record with every other field populated but
no rating leaves the catalog unchanged and adds one failure. -/
theorem C7_witness :
    noRatingRecord.input_rating_kva = none ∧
    load_all_designs ([some exampleRecord3] ++ [some noRatingRecord])
      = load_all_designs [some exampleRecord3] ∧
    refresh_counts ([some exampleRecord3] ++ [some noRatingRecord])
      = ((refresh_counts [some exampleRecord3]).1,
         (refresh_counts [some exampleRecord3]).2 + 1) :=
  ⟨rfl, C7_rating_required.2.2 [some exampleRecord3] noRatingRecord rfl⟩

/-- C9: a record whose rating parsed to exactly `0.0` is excluded from the
catalog and counted as one refresh failure, exactly as if the rating were
missing — the guard `if specs and specs.input_rating_kva` is a truthiness
test, and `0.0` is falsy. -/
theorem C9_zero_rating_excluded :
    (∀ parsed (s : TransformerSpecs), s.input_rating_kva = some 0 →
      s ∉ load_all_designs parsed) ∧
    (∀ parsed (s : TransformerSpecs), s.input_rating_kva = some 0 →
      load_all_designs (parsed ++ [some s]) = load_all_designs parsed ∧
      refresh_counts (parsed ++ [some s])
        = ((refresh_counts parsed).1, (refresh_counts parsed).2 + 1)) ∧
    load_all_designs [some zeroRatingRecord] = [] ∧
    refresh_counts [some zeroRatingRecord] = (0, 1) := by
  have hko : ∀ (s : TransformerSpecs), s.input_rating_kva = some 0 →
      keepRecord (some s) = none := by
    intro s hs
    rw [keepRecord, if_neg]
    rw [ratingOk, hs]
    simp
  refine ⟨?_, ?_, by decide, by decide⟩
  · intro parsed s hs hmem
    obtain ⟨o, _, hk⟩ := List.mem_filterMap.mp hmem
    obtain ⟨x, hx, hx0⟩ := ratingOk_iff.mp (keepRecord_eq_some.mp hk).2
    rw [hs] at hx
    exact hx0 (Option.some_inj.mp hx).symm
  · intro parsed s hs
    constructor
    · rw [load_all_designs, load_all_designs, List.filterMap_append]
      rw [show List.filterMap keepRecord [some s] = [] by
        rw [List.filterMap_cons, hko s hs, List.filterMap_nil]]
      rw [List.append_nil]
    · rw [refresh_counts, refresh_counts, List.countP_append, List.countP_append]
      rw [show List.countP (fun o => (keepRecord o).isSome) [some s] = 0 by
        simp [List.countP_cons, hko s hs]]
      rw [show List.countP (fun o => (keepRecord o).isNone) [some s] = 1 by
        simp [List.countP_cons, hko s hs]]
      simp

/-- Witness for C9: the zero-rating record with other fields populated is
skipped and counted as one failure. -/
theorem C9_witness :
    zeroRatingRecord.input_rating_kva = some 0 ∧
    load_all_designs ([some exampleRecord3] ++ [some zeroRatingRecord])
      = load_all_designs [some exampleRecord3] ∧
    refresh_counts ([some exampleRecord3] ++ [some zeroRatingRecord])
      = ((refresh_counts [some exampleRecord3]).1,
         (refresh_counts [some exampleRecord3]).2 + 1) :=
  ⟨rfl, C9_zero_rating_excluded.2.1 [some exampleRecord3] zeroRatingRecord rfl⟩

/-- The regex matcher finds nothing in the empty text. -/
theorem matchNumAt_nil : matchNumAt [] = none := rfl

/-- The scan returns `q` exactly when some position matches with value `q`
and every earlier position fails: `re.search` leftmost-match semantics. -/
theorem findNumber_eq_some_iff (q : ℚ) :
    ∀ cs : List Char, findNumber cs = some q ↔
      ∃ i, matchNumAt (cs.drop i) = some q ∧
        ∀ j < i, matchNumAt (cs.drop j) = none := by
  intro cs
  induction cs with
  | nil =>
    constructor
    · intro h
      exact Option.noConfusion h
    · rintro ⟨i, hi, -⟩
      rw [List.drop_nil, matchNumAt_nil] at hi
      exact Option.noConfusion hi
  | cons c cs ih =>
    rcases h : matchNumAt (c :: cs) with _ | q'
    · rw [show findNumber (c :: cs) = findNumber cs by rw [findNumber, h], ih]
      constructor
      · rintro ⟨i, hi, hj⟩
        refine ⟨i + 1, by rw [List.drop_succ_cons]; exact hi, ?_⟩
        intro j hji
        cases j with
        | zero => rw [List.drop_zero]; exact h
        | succ j' =>
          rw [List.drop_succ_cons]
          exact hj j' (Nat.lt_of_succ_lt_succ hji)
      · rintro ⟨i, hi, hj⟩
        cases i with
        | zero =>
          rw [List.drop_zero, h] at hi
          exact Option.noConfusion hi
        | succ i' =>
          rw [List.drop_succ_cons] at hi
          refine ⟨i', hi, fun j hji => ?_⟩
          have h2 := hj (j + 1) (Nat.succ_lt_succ hji)
          rwa [List.drop_succ_cons] at h2
    · rw [show findNumber (c :: cs) = some q' by rw [findNumber, h]]
      constructor
      · intro hq
        obtain rfl := Option.some_inj.mp hq
        exact ⟨0, by rw [List.drop_zero]; exact h,
          fun j hj => absurd hj (Nat.not_lt_zero j)⟩
      · rintro ⟨i, hi, hj⟩
        cases i with
        | zero =>
          rw [List.drop_zero, h] at hi
          exact hi
        | succ i' =>
          have h2 := hj 0 (Nat.succ_pos i')
          rw [List.drop_zero, h] at h2
          exact Option.noConfusion h2

/-- The scan fails exactly when every position fails. -/
theorem findNumber_eq_none_iff :
    ∀ cs : List Char, findNumber cs = none ↔
      ∀ i, matchNumAt (cs.drop i) = none := by
  intro cs
  induction cs with
  | nil => exact ⟨fun _ i => by rw [List.drop_nil, matchNumAt_nil], fun _ => rfl⟩
  | cons c cs ih =>
    rcases h : matchNumAt (c :: cs) with _ | q'
    · rw [show findNumber (c :: cs) = findNumber cs by rw [findNumber, h], ih]
      constructor
      · intro hall i
        cases i with
        | zero => rw [List.drop_zero]; exact h
        | succ i' => rw [List.drop_succ_cons]; exact hall i'
      · intro hall i
        have h2 := hall (i + 1)
        rwa [List.drop_succ_cons] at h2
    · rw [show findNumber (c :: cs) = some q' by rw [findNumber, h]]
      constructor
      · intro hq
        exact Option.noConfusion hq
      · intro hall
        have h2 := hall 0
        rw [List.drop_zero, h] at h2
        exact Option.noConfusion h2

/-- C8 counterexample: on a whitespace-only (or empty) text cell the
categorical conversion `_safe_str` returns the EMPTY STRING, so the field is
set to `""` rather than left unset, contradicting the claim's "an empty
string leaves the field unset". -/
theorem C8_counterexample :
    safe_str (some " ") = some "" ∧ safe_str (some "") = some "" ∧
    (some "" : Option String) ≠ (none : Option String) := by
  refine ⟨by decide, by decide, ?_⟩
  intro h
  exact Option.noConfusion h

/-- C8 (amended): `None`/`NaN` cells leave every typed field unset; a
numeric field takes the value of the first decimal number of the raw text
(comma read as decimal point, leftmost regex match, surrounding unit text
discarded), and stays unset when no position of the text matches; an
integer field truncates the numeric result toward zero (the unique integer
within distance 1 on the zero side of the value); a categorical field is
the trimmed string — INCLUDING the empty string: an empty or
whitespace-only text cell yields `some ""`, it is not left unset. -/
theorem C8_safe_conversions :
    (safe_float none = none ∧ safe_int none = none ∧ safe_str none = none) ∧
    (∀ s q, safe_float (some (.str s)) = some q ↔
      ∃ i, matchNumAt ((commaDots s).drop i) = some q ∧
        ∀ j < i, matchNumAt ((commaDots s).drop j) = none) ∧
    (∀ s, safe_float (some (.str s)) = none ↔
      ∀ i, matchNumAt ((commaDots s).drop i) = none) ∧
    (∀ c, safe_int c = (safe_float c).map pyTrunc) ∧
    (∀ x : ℚ, |((pyTrunc x : ℤ) : ℚ)| ≤ |x| ∧ |x| < |((pyTrunc x : ℤ) : ℚ)| + 1 ∧
      0 ≤ ((pyTrunc x : ℤ) : ℚ) * x) ∧
    (∀ s, safe_str (some s) = some (pyStrip s)) ∧
    safe_str (some " ") = some "" := by
  refine ⟨⟨rfl, rfl, rfl⟩, ?_, ?_, ?_, ?_, fun s => rfl, by decide⟩
  · intro s q
    exact findNumber_eq_some_iff q (commaDots s)
  · intro s
    exact findNumber_eq_none_iff (commaDots s)
  · intro c
    rw [safe_int]
    rcases h : safe_float c with _ | x <;> simp [h]
  · intro x
    rw [pyTrunc]
    split_ifs with hx
    · have h1 : (0 : ℚ) ≤ (⌊x⌋ : ℚ) := by
        exact_mod_cast Int.floor_nonneg.mpr hx
      rw [abs_of_nonneg hx, abs_of_nonneg h1]
      exact ⟨Int.floor_le x, Int.lt_floor_add_one x, mul_nonneg h1 hx⟩
    · have hx2 : x < 0 := lt_of_not_le hx
      have hc : (⌈x⌉ : ℚ) ≤ 0 := by
        have h0 : ⌈x⌉ ≤ (0 : ℤ) := Int.ceil_le.mpr (by exact_mod_cast hx2.le)
        exact_mod_cast h0
      rw [abs_of_nonpos hx2.le, abs_of_nonpos hc]
      refine ⟨neg_le_neg (Int.le_ceil x), ?_,
        mul_nonneg_of_nonpos_of_nonpos hc hx2.le⟩
      have h2 := Int.ceil_lt_add_one x
      linarith

/-- Witness for C8 (amended): values extracted from concrete cell texts —
a comma decimal with a unit suffix, a negative comma decimal truncated
toward zero, and a padded categorical string. -/
theorem C8_witness :
    safe_float (some (.str "10,5 kVA")) = some (21/2) ∧
    safe_int (some (.str "-3,5")) = some (-3) ∧
    safe_str (some "  ONAN ") = some "ONAN" := by
  have hf2 : safe_float (some (.str "-3,5")) = some (-7/2) := by
    apply (C8_safe_conversions.2.1 "-3,5" (-7/2)).mpr
    refine ⟨0, ?_, fun j hj => absurd hj (Nat.not_lt_zero j)⟩
    rw [List.drop_zero]
    rw [show matchNumAt (commaDots "-3,5")
        = some ((-1 : ℚ) * ((digitsVal ['3'] : ℚ) + fracVal ['5'])) from rfl]
    rw [fracVal, show digitsVal ['3'] = 3 from by decide,
      show digitsVal ['5'] = 5 from by decide]
    norm_num
  refine ⟨?_, ?_, by decide⟩
  · apply (C8_safe_conversions.2.1 "10,5 kVA" (21/2)).mpr
    refine ⟨0, ?_, fun j hj => absurd hj (Nat.not_lt_zero j)⟩
    rw [List.drop_zero]
    rw [show matchNumAt (commaDots "10,5 kVA")
        = some ((1 : ℚ) * ((digitsVal ['1', '0'] : ℚ) + fracVal ['5'])) from rfl]
    rw [fracVal, show digitsVal ['1', '0'] = 10 from by decide,
      show digitsVal ['5'] = 5 from by decide]
    norm_num
  · rw [C8_safe_conversions.2.2.2.1 (some (.str "-3,5")), hf2, Option.map_some']
    rw [show pyTrunc (-7/2 : ℚ) = -3 by
      rw [pyTrunc, if_neg (by norm_num), Int.ceil_eq_iff]
      constructor <;> norm_num]

end Trafo
